import Mathlib

/-!
Verification of the dirverify manifest generator/verifier.

This file is a shallow embedding of the program's core: the digest engine
(`src/hashing.rs`), the manifest builder (`generate_checksums` and
`process_file` in `src/main.rs`), and the manifest verifier
(`verify_checksums` and `verify_single_file` in `src/main.rs`).

Modelling conventions:
- File bytes are `List Nat`; a failed read (`File::open` / `read` error)
  is `none` in an `Option (List Nat)`.
- The external hash libraries (sha2, md5, crc32fast, blake2, xxhash) are
  external collaborators: they are abstracted as a `Hashers` bundle of
  pure functions producing raw digests of the documented sizes
  (32 bytes, 16 bytes, a u32, 32 bytes, a u64 respectively).  The hex
  formatting done by `hash_file` itself is embedded exactly.
- The filesystem seen by verification is a lookup from a manifest path to
  a `TargetFile` describing what the OS calls return for the joined path.
-/

namespace Dirverify

/-- `HashAlgorithm` from `src/hashing.rs` (the CLI `Algorithm` enum in
`src/main.rs` maps onto it one-to-one via `From`). -/
inductive HashAlgorithm where
  | Sha256
  | Md5
  | Crc32
  | Blake2
  | Xxh3
deriving DecidableEq, Repr

/-- The five streaming hash cores used by `hash_file`.  These live in
external crates; we model each as a pure function from the file's byte
content to a raw digest of the size the crate documents.  Feeding 64 KiB
chunks in order and finalizing is extensionally the hash of the whole
content, which is what these functions return. -/
structure Hashers where
  sha256Core : List Nat → List (Fin 256)
  sha256Len : ∀ bs, (sha256Core bs).length = 32
  md5Core : List Nat → List (Fin 256)
  md5Len : ∀ bs, (md5Core bs).length = 16
  crc32Core : List Nat → Fin (2 ^ 32)
  blake2Core : List Nat → List (Fin 256)
  blake2Len : ∀ bs, (blake2Core bs).length = 32
  xxh3Core : List Nat → Fin (2 ^ 64)

/-- Rust's `{:02x}` applied to one byte: two lowercase hex digits. -/
def hexByte (b : Fin 256) : List Char :=
  [Nat.digitChar (b.val / 16 % 16), Nat.digitChar (b.val % 16)]

/-- Rust's `{:x}` on a digest byte array (sha2 / md5 / blake2 `LowerHex`
implementations format each byte with `{:02x}` in order). -/
def bytesToHex (bs : List (Fin 256)) : String :=
  ⟨(bs.map hexByte).flatten⟩

/-- Rust's zero-padded `{:0Wx}` on an unsigned integer `n < 16^W`:
exactly `W` lowercase hex digits, most significant first. -/
def hexPad (width : Nat) (n : Nat) : String :=
  ⟨((List.range width).reverse.map (fun i => Nat.digitChar (n / 16 ^ i % 16)))⟩

/-- `hash_file`'s per-algorithm digest-and-format logic from
`src/hashing.rs`, applied to the file content it managed to read:
SHA-256/MD5/BLAKE2s use `{:x}` on the byte array, CRC32 uses `{:08x}`
on a `u32`, XXH3 uses `{:016x}` on a `u64`. -/
def hashBytes (H : Hashers) (algorithm : HashAlgorithm) (data : List Nat) : String :=
  match algorithm with
  | .Sha256 => bytesToHex (H.sha256Core data)
  | .Md5 => bytesToHex (H.md5Core data)
  | .Crc32 => hexPad 8 (H.crc32Core data).val
  | .Blake2 => bytesToHex (H.blake2Core data)
  | .Xxh3 => hexPad 16 (H.xxh3Core data).val

/-- `hash_file` from `src/hashing.rs`: opening/reading the file can fail
(modelled by `content = none`), otherwise the digest of the streamed
bytes is formatted as a hex string. -/
def hash_file (H : Hashers) (content : Option (List Nat)) (algorithm : HashAlgorithm) :
    Option String :=
  content.map (hashBytes H algorithm)

/-- The fixed hex width of each algorithm's textual digest. -/
def digestWidth : HashAlgorithm → Nat
  | .Sha256 => 64
  | .Md5 => 32
  | .Crc32 => 8
  | .Blake2 => 64
  | .Xxh3 => 16

/-- A character is a lowercase hexadecimal digit. -/
def isLowerHexDigit (c : Char) : Bool :=
  (decide ('0' ≤ c) && decide (c ≤ '9')) || (decide ('a' ≤ c) && decide (c ≤ 'f'))

/-- `ChecksumEntry` from `src/main.rs` (serialized with `modified`/`size`
omitted when `None`). -/
structure ChecksumEntry where
  path : String
  hash : String
  modified : Option Nat
  size : Option Nat
deriving DecidableEq, Repr

/-- `ChecksumFile` from `src/main.rs`. -/
structure ChecksumFile where
  version : String
  algorithm : String
  entries : List ChecksumEntry
deriving DecidableEq, Repr

/-- `format!("{:?}", args.algorithm).to_lowercase()` in
`generate_checksums`: the canonical lowercase algorithm name. -/
def algorithmName : HashAlgorithm → String
  | .Sha256 => "sha256"
  | .Md5 => "md5"
  | .Crc32 => "crc32"
  | .Blake2 => "blake2"
  | .Xxh3 => "xxh3"

/-- Rust's `str::cmp` is lexicographic on UTF-8 bytes, which for valid
UTF-8 coincides with lexicographic comparison of the code points.  This
is the `≤` direction of that comparison, used by
`entries.sort_by(|a, b| a.path.cmp(&b.path))`. -/
def charsLe : List Char → List Char → Bool
  | [], _ => true
  | _ :: _, [] => false
  | a :: as, b :: bs =>
    if a.toNat < b.toNat then true
    else if b.toNat < a.toNat then false
    else charsLe as bs

/-- Entry comparison used to sort the manifest: ascending by `path`. -/
def entryLe (a b : ChecksumEntry) : Bool :=
  charsLe a.path.data b.path.data

/-- Insert an element into a list, before the first element it compares
`le` to.  Building block of the stable sort below. -/
def insertLe {α : Type} (le : α → α → Bool) (a : α) : List α → List α
  | [] => [a]
  | b :: l => if le a b then a :: b :: l else b :: insertLe le a l

/-- Stable sort by `le`.  `entries.sort_by(|a, b| a.path.cmp(&b.path))`
in `generate_checksums` is Rust's stable sort; any stable sort by the
same comparison produces the same list, so the model uses insertion
sort. -/
def sortLe {α : Type} (le : α → α → Bool) : List α → List α
  | [] => []
  | a :: l => insertLe le a (sortLe le l)

/-- `f` holds of some suffix of the list (the list itself included). -/
def anySuffix (f : List Char → Bool) : List Char → Bool
  | [] => f []
  | c :: cs => f (c :: cs) || anySuffix f cs

/-- Modelled from the spec: the `glob` crate's `Pattern::matches` (the
crate itself is an external dependency, not in `src/`).  The spec says
exclude patterns are "Glob-style ... (supporting `*`, `**`, and literal
segments) ... matched against the path representation".  `matches` uses
default `MatchOptions` (`require_literal_separator = false`), under
which both `*` and `**` match any character sequence, separators
included (a star pattern matches when the rest of the pattern matches
some suffix of the rest of the string); `?` matches exactly one
character; any other character matches itself literally. -/
def globMatch : List Char → List Char → Bool
  | [], cs => cs.isEmpty
  | '*' :: ps, cs => anySuffix (globMatch ps) cs
  | '?' :: ps, cs =>
    match cs with
    | [] => false
    | _ :: cs' => globMatch ps cs'
  | p :: ps, cs =>
    match cs with
    | [] => false
    | c :: cs' => p == c && globMatch ps cs'

/-- `should_exclude` from `src/main.rs`: a path is excluded when any of
the compiled patterns matches its string representation.  (Paths here
are always valid strings, so the `to_str` failure branch — which yields
`false` — does not arise in the model.) -/
def should_exclude (path : String) (patterns : List (List Char)) : Bool :=
  patterns.any (fun pattern => globMatch pattern path.data)

/-- One regular file yielded by the `WalkDir` scan, together with the
outcome of the I/O that generation will perform on it: `fullPath` is
`entry.path()` (the string `should_exclude` sees), `relPath` the
root-relative path recorded in the manifest, `content` the bytes
`hash_file` reads (`none` if that read fails), and `meta` the
`(modified-epoch-seconds, size)` pair from `fs::metadata` (`none` if
the metadata read fails). -/
structure SourceFile where
  fullPath : String
  relPath : String
  content : Option (List Nat)
  meta : Option (Nat × Nat)
deriving DecidableEq

/-- `process_file` from `src/main.rs`: digest the file, and when
`include_metadata` capture mtime seconds and size; any failure makes
the whole file fail (it will be counted as an error and dropped). -/
def process_file (H : Hashers) (f : SourceFile) (algorithm : HashAlgorithm)
    (include_metadata : Bool) : Option ChecksumEntry :=
  match hash_file H f.content algorithm with
  | none => none
  | some h =>
    if include_metadata then
      match f.meta with
      | none => none
      | some (m, s) => some { path := f.relPath, hash := h, modified := some m, size := some s }
    else
      some { path := f.relPath, hash := h, modified := none, size := none }

/-- Result of a generation run: the manifest value, the error counter,
and whether the run returned `Ok(())`. -/
structure GenerateResult where
  file : ChecksumFile
  errors : Nat
  ok : Bool
deriving Repr

/-- `generate_checksums` from `src/main.rs`, applied to the list of
regular files the `WalkDir` scan yielded: drop excluded paths, process
the rest (a failing file increments the error counter and contributes
no entry), sort entries by path, and wrap them with the fixed version
string and the canonical algorithm name.  The run returns `Ok(())`
regardless of the error count. -/
def generate_checksums (H : Hashers) (algorithm : HashAlgorithm)
    (patterns : List (List Char)) (skip_newer : Bool) (files : List SourceFile) :
    GenerateResult :=
  let included := files.filter (fun f => !(should_exclude f.fullPath patterns))
  let results := included.filterMap (fun f => process_file H f algorithm skip_newer)
  { file :=
      { version := "1.0"
        algorithm := algorithmName algorithm
        entries := sortLe entryLe results }
    errors := included.countP (fun f => (process_file H f algorithm skip_newer).isNone)
    ok := true }

/-- What the filesystem answers for one verification target path:
`found` is `path.exists()`; `meta` is the result of `fs::metadata`
(`Except.error msg` when it fails), carrying the mtime in seconds since
the epoch when `modified()`/`duration_since` succeed; `content` is the
bytes `hash_file` reads (`none` if opening/reading fails). -/
structure TargetFile where
  found : Bool
  meta : Except String (Option Nat)
  content : Option (List Nat)

/-- `VerifyResult` from `src/main.rs`. -/
inductive VerifyResult where
  | Ok
  | Failed (msg : String)
  | Skipped (msg : String)
deriving DecidableEq, Repr

/-- The common tail of `verify_single_file`: recompute the digest and
compare it with the recorded one. -/
def hashCheck (H : Hashers) (t : TargetFile) (entry : ChecksumEntry)
    (algorithm : HashAlgorithm) : VerifyResult :=
  match hash_file H t.content algorithm with
  | some h =>
    if h == entry.hash then VerifyResult.Ok
    else VerifyResult.Failed ("Hash mismatch: expected " ++ entry.hash ++ ", got " ++ h)
  | none => VerifyResult.Failed "Cannot compute hash"

/-- `verify_single_file` from `src/main.rs`: missing file fails; with
`skip_newer` and a recorded mtime, a metadata error fails, a strictly
newer target is skipped, and otherwise (including when the mtime cannot
be read from otherwise-good metadata) the digest is checked. -/
def verify_single_file (H : Hashers) (t : TargetFile) (entry : ChecksumEntry)
    (algorithm : HashAlgorithm) (skip_newer : Bool) : VerifyResult :=
  if !t.found then VerifyResult.Failed "File not found"
  else
    match skip_newer, entry.modified with
    | true, some recorded =>
      (match t.meta with
       | .error e => VerifyResult.Failed ("Cannot read metadata: " ++ e)
       | .ok (some current) =>
         if current > recorded then VerifyResult.Skipped "File is newer on target"
         else hashCheck H t entry algorithm
       | .ok none => hashCheck H t entry algorithm)
    | _, _ => hashCheck H t entry algorithm

/-- Boolean classifiers for the three outcome kinds. -/
def VerifyResult.isOk : VerifyResult → Bool
  | .Ok => true
  | _ => false

def VerifyResult.isFail : VerifyResult → Bool
  | .Failed _ => true
  | _ => false

def VerifyResult.isSkip : VerifyResult → Bool
  | .Skipped _ => true
  | _ => false

/-- The summary counters of a verification run and the resulting
process exit code. -/
structure VerifySummary where
  okCount : Nat
  failCount : Nat
  skipCount : Nat
  total : Nat
  exitCode : Nat
deriving DecidableEq, Repr

/-- The algorithm-string dispatch in `verify_checksums`: unknown names
emit a warning and fall back to SHA-256. -/
def parseAlgorithm (s : String) : HashAlgorithm :=
  if s == "sha256" then .Sha256
  else if s == "md5" then .Md5
  else if s == "crc32" then .Crc32
  else if s == "blake2" then .Blake2
  else if s == "xxh3" then .Xxh3
  else .Sha256

/-- `verify_checksums` from `src/main.rs`, given the loaded manifest and
the filesystem's answers for each joined path `root_dir.join(entry.path)`
(the `target` lookup).  Each entry is classified independently; the
counters count outcomes by kind; the process exits 1 exactly when the
failure counter is positive, else the run returns `Ok(())` (exit 0). -/
def verify_checksums (H : Hashers) (target : String → TargetFile)
    (cf : ChecksumFile) (skip_newer : Bool) : VerifySummary :=
  let algorithm := parseAlgorithm cf.algorithm
  let results := cf.entries.map
    (fun entry => verify_single_file H (target entry.path) entry algorithm skip_newer)
  let failCount := results.countP VerifyResult.isFail
  { okCount := results.countP VerifyResult.isOk
    failCount := failCount
    skipCount := results.countP VerifyResult.isSkip
    total := cf.entries.length
    exitCode := if failCount > 0 then 1 else 0 }

/-- The filesystem state in which a verification run sees exactly the
directory that was scanned, unchanged: each manifest path resolves to
the scanned file with that root-relative path, with the same bytes and
the same mtime.  Paths not produced by the scan do not resolve. -/
def targetUnchanged (files : List SourceFile) (p : String) : TargetFile :=
  match files.find? (fun f => f.relPath == p) with
  | some f => { found := true, meta := Except.ok (f.meta.map Prod.fst), content := f.content }
  | none => { found := false, meta := Except.error "not found", content := none }

/-- A concrete instantiation of the hash-core bundle (constant digests of
the documented sizes), used to evaluate the pipeline on closed inputs. -/
def trivHashers : Hashers where
  sha256Core := fun _ => List.replicate 32 ⟨0, by norm_num⟩
  sha256Len := fun _ => List.length_replicate 32 _
  md5Core := fun _ => List.replicate 16 ⟨0, by norm_num⟩
  md5Len := fun _ => List.length_replicate 16 _
  crc32Core := fun _ => ⟨0, by norm_num⟩
  blake2Core := fun _ => List.replicate 32 ⟨0, by norm_num⟩
  blake2Len := fun _ => List.length_replicate 32 _
  xxh3Core := fun _ => ⟨0, by norm_num⟩

/-! ### Order and sorting lemmas -/

theorem charsLe_refl (a : List Char) : charsLe a a = true := by
  induction a with
  | nil => rfl
  | cons c cs ih => simp [charsLe, ih]

theorem charsLe_total (a b : List Char) : charsLe a b = true ∨ charsLe b a = true := by
  induction a generalizing b with
  | nil => left; rfl
  | cons c cs ih =>
    cases b with
    | nil => right; rfl
    | cons d ds =>
      by_cases h1 : c.toNat < d.toNat
      · left; simp [charsLe, h1]
      · by_cases h2 : d.toNat < c.toNat
        · right; simp [charsLe, h2]
        · rcases ih ds with h | h
          · left; simp [charsLe, h1, h2, h]
          · right; simp [charsLe, h1, h2, h]

theorem charsLe_antisymm {a b : List Char} (hab : charsLe a b = true)
    (hba : charsLe b a = true) : a = b := by
  induction a generalizing b with
  | nil =>
    cases b with
    | nil => rfl
    | cons d ds => simp [charsLe] at hba
  | cons c cs ih =>
    cases b with
    | nil => simp [charsLe] at hab
    | cons d ds =>
      by_cases h1 : c.toNat < d.toNat
      · simp [charsLe, h1, Nat.lt_asymm h1, Nat.ne_of_lt h1] at hba
      · by_cases h2 : d.toNat < c.toNat
        · simp [charsLe, h1, h2] at hab
        · have hcd : c = d := by
            have h3 : c.toNat = d.toNat := by omega
            exact Char.ext (UInt32.ext h3)
          subst hcd
          simp only [charsLe, h1, if_neg, if_neg (lt_irrefl c.toNat)] at hab hba
          rw [ih hab hba]

theorem charsLe_trans {a b c : List Char} (hab : charsLe a b = true)
    (hbc : charsLe b c = true) : charsLe a c = true := by
  induction a generalizing b c with
  | nil => rfl
  | cons x xs ih =>
    cases b with
    | nil => simp [charsLe] at hab
    | cons y ys =>
      cases c with
      | nil => simp [charsLe] at hbc
      | cons z zs =>
        simp only [charsLe] at hab hbc ⊢
        by_cases hxy : x.toNat < y.toNat
        · by_cases hyz : y.toNat < z.toNat
          · simp [show x.toNat < z.toNat by omega]
          · by_cases hzy : z.toNat < y.toNat
            · simp [hyz, hzy] at hbc
            · simp [show x.toNat < z.toNat by omega]
        · by_cases hyx : y.toNat < x.toNat
          · simp [hxy, hyx] at hab
          · by_cases hyz : y.toNat < z.toNat
            · simp [show x.toNat < z.toNat by omega]
            · by_cases hzy : z.toNat < y.toNat
              · simp [hyz, hzy] at hbc
              · have hxz : ¬ x.toNat < z.toNat := by omega
                have hzx : ¬ z.toNat < x.toNat := by omega
                simp only [hxy, hyx, if_neg, if_false] at hab
                simp only [hyz, hzy, if_neg, if_false] at hbc
                simp [hxz, hzx, ih hab hbc]

theorem entryLe_total (a b : ChecksumEntry) : entryLe a b = true ∨ entryLe b a = true :=
  charsLe_total a.path.data b.path.data

theorem entryLe_trans {a b c : ChecksumEntry} (hab : entryLe a b = true)
    (hbc : entryLe b c = true) : entryLe a c = true :=
  charsLe_trans hab hbc

theorem entryLe_path_eq {a b : ChecksumEntry} (hab : entryLe a b = true)
    (hba : entryLe b a = true) : a.path = b.path :=
  String.ext (charsLe_antisymm hab hba)

theorem insertLe_perm {α : Type} (le : α → α → Bool) (a : α) (l : List α) :
    (insertLe le a l).Perm (a :: l) := by
  induction l with
  | nil => exact List.Perm.refl _
  | cons b l ih =>
    by_cases h : le a b
    · simp [insertLe, h]
    · simp only [insertLe, h, if_false, Bool.false_eq_true]
      exact (ih.cons b).trans (List.Perm.swap a b l)

theorem sortLe_perm {α : Type} (le : α → α → Bool) (l : List α) :
    (sortLe le l).Perm l := by
  induction l with
  | nil => exact List.Perm.refl _
  | cons a l ih => exact (insertLe_perm le a (sortLe le l)).trans (ih.cons a)

theorem mem_insertLe {α : Type} {le : α → α → Bool} {a x : α} {l : List α} :
    x ∈ insertLe le a l ↔ x = a ∨ x ∈ l := by
  rw [(insertLe_perm le a l).mem_iff]; simp

theorem pairwise_insertLe {α : Type} {le : α → α → Bool}
    (total : ∀ a b, le a b = true ∨ le b a = true)
    (trans : ∀ {a b c}, le a b = true → le b c = true → le a c = true)
    {a : α} {l : List α} (hl : l.Pairwise (fun x y => le x y = true)) :
    (insertLe le a l).Pairwise (fun x y => le x y = true) := by
  induction l with
  | nil => simp [insertLe]
  | cons b l ih =>
    rcases List.pairwise_cons.mp hl with ⟨hb, hl'⟩
    by_cases h : le a b
    · simp only [insertLe, h, if_true]
      refine List.pairwise_cons.mpr ⟨?_, hl⟩
      intro x hx
      rcases List.mem_cons.mp hx with rfl | hx'
      · exact h
      · exact trans h (hb x hx')
    · have hba : le b a = true := (total a b).resolve_left (by simpa using h)
      simp only [insertLe, h, if_false, Bool.false_eq_true]
      refine List.pairwise_cons.mpr ⟨?_, ih hl'⟩
      intro x hx
      rcases mem_insertLe.mp hx with rfl | hx
      · exact hba
      · exact hb x hx

theorem pairwise_sortLe {α : Type} {le : α → α → Bool}
    (total : ∀ a b, le a b = true ∨ le b a = true)
    (trans : ∀ {a b c}, le a b = true → le b c = true → le a c = true)
    (l : List α) : (sortLe le l).Pairwise (fun x y => le x y = true) := by
  induction l with
  | nil => simp [sortLe]
  | cons a l ih => exact pairwise_insertLe total trans ih

/-- Two lists of entries that are permutations of each other, both sorted
by `entryLe`, with no duplicate path in the first, are equal. -/
theorem sorted_nodup_perm_eq {l₁ l₂ : List ChecksumEntry}
    (hperm : l₁.Perm l₂)
    (hs₁ : l₁.Pairwise (fun x y => entryLe x y = true))
    (hs₂ : l₂.Pairwise (fun x y => entryLe x y = true))
    (hnd : (l₁.map (fun e => e.path)).Nodup) : l₁ = l₂ := by
  have hnd₂ : (l₂.map (fun e => e.path)).Nodup :=
    ((hperm.map (fun e => e.path)).nodup_iff).mp hnd
  have hne₁ : l₁.Pairwise (fun x y => x.path ≠ y.path) := List.pairwise_map.mp hnd
  have hne₂ : l₂.Pairwise (fun x y => x.path ≠ y.path) := List.pairwise_map.mp hnd₂
  have anti : IsAntisymm ChecksumEntry
      (fun x y => entryLe x y = true ∧ x.path ≠ y.path) := by
    constructor
    intro a b hab hba
    exact absurd (entryLe_path_eq hab.1 hba.1) hab.2
  exact @List.eq_of_perm_of_sorted _ _ anti _ _ hperm (hs₁.and hne₁) (hs₂.and hne₂)

/-! ### List bookkeeping lemmas -/

theorem length_filterMap_add_countP {α β : Type} (f : α → Option β) (l : List α) :
    (l.filterMap f).length + l.countP (fun a => (f a).isNone) = l.length := by
  induction l with
  | nil => rfl
  | cons a l ih =>
    rw [List.filterMap_cons, List.countP_cons]
    cases h : f a with
    | none => simp [h]; omega
    | some b => simp [h]; omega

/-- If the keys of `l` are distinct and each produced value carries its
source's key, the produced values' keys are distinct too. -/
theorem nodup_keys_filterMap {α β : Type} (f : α → Option β)
    (key : α → String) (pkey : β → String)
    (hcarry : ∀ a b, f a = some b → pkey b = key a) :
    ∀ l : List α, (l.map key).Nodup → ((l.filterMap f).map pkey).Nodup := by
  intro l
  induction l with
  | nil => intro _; simp
  | cons a l ih =>
    intro hnd
    rw [List.map_cons, List.nodup_cons] at hnd
    cases h : f a with
    | none => simpa [List.filterMap_cons, h] using ih hnd.2
    | some b =>
      rw [List.filterMap_cons, h, List.map_cons, List.nodup_cons]
      refine ⟨?_, ih hnd.2⟩
      intro hmem
      rcases List.mem_map.mp hmem with ⟨b', hb', hkey⟩
      rcases List.mem_filterMap.mp hb' with ⟨a', ha', hfa'⟩
      exact hnd.1 (by
        rw [← hcarry a b h, ← hkey, hcarry a' b' hfa']
        exact List.mem_map_of_mem key ha')

/-- With distinct keys, `find?` by a member's key returns that member. -/
theorem find_of_nodup_keys {α : Type} (key : α → String) {l : List α} {f : α}
    (hnd : (l.map key).Nodup) (hmem : f ∈ l) :
    l.find? (fun g => key g == key f) = some f := by
  induction l with
  | nil => cases hmem
  | cons a l ih =>
    rw [List.map_cons, List.nodup_cons] at hnd
    rcases List.mem_cons.mp hmem with rfl | hmem'
    · rw [List.find?_cons_of_pos _ (by simp)]
    · have hne : key a ≠ key f := by
        intro h
        exact hnd.1 (h ▸ List.mem_map_of_mem key hmem')
      rw [List.find?_cons_of_neg _ (by simp [hne])]
      exact ih hnd.2 hmem'

/-! ### Facts about the generation pipeline -/

/-- What a successful `process_file` tells us: the file's content was
read, the entry records the file's relative path and the digest of that
content, and the metadata fields are filled exactly when requested. -/
theorem process_file_eq_some {H : Hashers} {f : SourceFile} {a : HashAlgorithm}
    {incl : Bool} {e : ChecksumEntry}
    (h : process_file H f a incl = some e) :
    ∃ c, f.content = some c ∧ e.path = f.relPath ∧ e.hash = hashBytes H a c ∧
      ((incl = true ∧ ∃ m s, f.meta = some (m, s) ∧ e.modified = some m ∧ e.size = some s) ∨
       (incl = false ∧ e.modified = none ∧ e.size = none)) := by
  unfold process_file hash_file at h
  cases hc : f.content with
  | none => rw [hc] at h; simp at h
  | some c =>
    rw [hc] at h
    simp only [Option.map_some'] at h
    refine ⟨c, rfl, ?_⟩
    cases incl with
    | false =>
      simp only [Bool.false_eq_true, if_false] at h
      rcases Option.some_inj.mp h with rfl
      exact ⟨rfl, rfl, Or.inr ⟨rfl, rfl, rfl⟩⟩
    | true =>
      simp only [if_true] at h
      cases hm : f.meta with
      | none => rw [hm] at h; simp at h
      | some ms =>
        rw [hm] at h
        rcases Option.some_inj.mp h with rfl
        exact ⟨rfl, rfl, Or.inl ⟨rfl, ms.1, ms.2, rfl, rfl, rfl⟩⟩

/-- An entry is in the produced manifest exactly when some scanned file
survives exclusion and processes to it. -/
theorem mem_generate_entries {H : Hashers} {a : HashAlgorithm}
    {patterns : List (List Char)} {skip_newer : Bool} {files : List SourceFile}
    {e : ChecksumEntry} :
    e ∈ (generate_checksums H a patterns skip_newer files).file.entries ↔
      ∃ f ∈ files, should_exclude f.fullPath patterns = false ∧
        process_file H f a skip_newer = some e := by
  unfold generate_checksums
  dsimp only
  rw [(sortLe_perm entryLe _).mem_iff]
  simp only [List.mem_filterMap, List.mem_filter, Bool.not_eq_true']
  constructor
  · rintro ⟨f, ⟨hf, hexcl⟩, hp⟩
    exact ⟨f, hf, hexcl, hp⟩
  · rintro ⟨f, hf, hexcl, hp⟩
    exact ⟨f, ⟨hf, hexcl⟩, hp⟩

/-- The verifier's algorithm dispatch inverts the generator's naming. -/
theorem parseAlgorithm_algorithmName (a : HashAlgorithm) :
    parseAlgorithm (algorithmName a) = a := by
  cases a <;> rfl

/-! ### Hex-encoding facts -/

theorem bytesToHex_length (bs : List (Fin 256)) : (bytesToHex bs).length = 2 * bs.length := by
  unfold bytesToHex
  show ((bs.map hexByte).flatten).length = 2 * bs.length
  induction bs with
  | nil => rfl
  | cons b bs ih =>
    simp only [List.map_cons, List.flatten_cons, List.length_append, List.length_cons, ih,
      hexByte, List.length_nil]
    omega

theorem hexPad_length (w n : Nat) : (hexPad w n).length = w := by
  unfold hexPad
  show (((List.range w).reverse.map _)).length = w
  simp

theorem isLowerHexDigit_digitChar_mod (n : Nat) :
    isLowerHexDigit (Nat.digitChar (n % 16)) = true := by
  have hall : ∀ m, m < 16 → isLowerHexDigit (Nat.digitChar m) = true := by decide
  exact hall _ (Nat.mod_lt _ (by norm_num))

theorem bytesToHex_lowerHex (bs : List (Fin 256)) :
    ∀ c ∈ (bytesToHex bs).data, isLowerHexDigit c = true := by
  intro c hc
  unfold bytesToHex at hc
  rcases List.mem_flatten.mp hc with ⟨l, hl, hcl⟩
  rcases List.mem_map.mp hl with ⟨b, _, rfl⟩
  simp only [hexByte, List.mem_cons, List.not_mem_nil, or_false] at hcl
  rcases hcl with rfl | rfl <;> exact isLowerHexDigit_digitChar_mod _

theorem hexPad_lowerHex (w n : Nat) :
    ∀ c ∈ (hexPad w n).data, isLowerHexDigit c = true := by
  intro c hc
  unfold hexPad at hc
  rcases List.mem_map.mp hc with ⟨i, _, rfl⟩
  exact isLowerHexDigit_digitChar_mod _

/-! ### The claims -/

/-- C7: for every supported algorithm and every byte source, the hex
string returned by the digest engine has exactly that algorithm's fixed
width — 64 characters for SHA-256, 32 for MD5, 8 (zero-padded) for
CRC32, 64 for BLAKE2s-256, 16 (zero-padded) for XXH3-64 — and every
character of it is a lowercase hex digit. -/
theorem digest_width_invariant (H : Hashers) (a : HashAlgorithm) (bs : List Nat) :
    (hashBytes H a bs).length = digestWidth a ∧
      ∀ c ∈ (hashBytes H a bs).data, isLowerHexDigit c = true := by
  cases a with
  | Sha256 =>
    refine ⟨?_, bytesToHex_lowerHex _⟩
    show (bytesToHex (H.sha256Core bs)).length = 64
    rw [bytesToHex_length, H.sha256Len]
  | Md5 =>
    refine ⟨?_, bytesToHex_lowerHex _⟩
    show (bytesToHex (H.md5Core bs)).length = 32
    rw [bytesToHex_length, H.md5Len]
  | Crc32 => exact ⟨hexPad_length 8 _, hexPad_lowerHex 8 _⟩
  | Blake2 =>
    refine ⟨?_, bytesToHex_lowerHex _⟩
    show (bytesToHex (H.blake2Core bs)).length = 64
    rw [bytesToHex_length, H.blake2Len]
  | Xxh3 => exact ⟨hexPad_length 16 _, hexPad_lowerHex 16 _⟩

/-- C2: when skip-newer is enabled, the entry records a modification
time, the target exists and its current modification time is strictly
greater than the recorded one, the entry is classified Skipped — for
every target content and recorded digest, so the digest need not
match. -/
theorem skip_newer_skips (H : Hashers) (t : TargetFile) (entry : ChecksumEntry)
    (a : HashAlgorithm) (recorded current : Nat)
    (hmod : entry.modified = some recorded)
    (hfound : t.found = true)
    (hmeta : t.meta = Except.ok (some current))
    (hnewer : recorded < current) :
    verify_single_file H t entry a true = VerifyResult.Skipped "File is newer on target" := by
  unfold verify_single_file
  rw [hfound, hmod, hmeta]
  simp [hnewer]

/-- C2 witness: a concrete entry recorded at time 3 whose target now has
time 7 and different content is Skipped. -/
theorem skip_newer_skips_witness :
    verify_single_file trivHashers ⟨true, Except.ok (some 7), some [1, 2]⟩
      ⟨"f.txt", "deadbeef", some 3, some 2⟩ HashAlgorithm.Sha256 true =
      VerifyResult.Skipped "File is newer on target" :=
  skip_newer_skips trivHashers _ _ _ 3 7 rfl rfl rfl (by omega)

/-- The exit code is computed from the failure counter alone. -/
theorem verify_exitCode (H : Hashers) (target : String → TargetFile)
    (cf : ChecksumFile) (skip_newer : Bool) :
    (verify_checksums H target cf skip_newer).exitCode =
      if (verify_checksums H target cf skip_newer).failCount > 0 then 1 else 0 := rfl

/-- C3: a verification run exits 1 exactly when the count of Failed
entries is at least 1, and exits 0 exactly when it is zero, whatever
the Ok and Skipped counts are. -/
theorem aggregate_failure_signal (H : Hashers) (target : String → TargetFile)
    (cf : ChecksumFile) (skip_newer : Bool) :
    ((verify_checksums H target cf skip_newer).exitCode = 1 ↔
        1 ≤ (verify_checksums H target cf skip_newer).failCount) ∧
    ((verify_checksums H target cf skip_newer).exitCode = 0 ↔
        (verify_checksums H target cf skip_newer).failCount = 0) := by
  rw [verify_exitCode H target cf skip_newer]
  rcases Nat.eq_zero_or_pos (verify_checksums H target cf skip_newer).failCount with h | h
  · rw [h]
    norm_num
  · rw [if_pos h]
    exact ⟨⟨fun _ => h, fun _ => rfl⟩,
      ⟨fun h1 => absurd h1 (by norm_num), fun h0 => absurd h (by omega)⟩⟩

/-- C6 counterexample: the claim classifies every metadata-read error —
"including obtaining its modification time" — as Failed, but when
`fs::metadata` succeeds and only the modification time cannot be
obtained (`metadata.modified()` or `duration_since` errs), the code
falls through to the digest comparison: here the digest matches, so the
entry is classified Ok, not Failed. -/
theorem mtime_error_not_failed :
    verify_single_file trivHashers ⟨true, Except.ok none, some [1]⟩
      ⟨"f.txt", ⟨List.replicate 64 '0'⟩, some 3, some 1⟩ HashAlgorithm.Sha256 true =
      VerifyResult.Ok := by decide

/-- C6 as amended: with skip-newer enabled and a recorded modification
time, when the target exists but the `fs::metadata` call itself errors,
the entry is classified Failed; an error merely in obtaining the
modification time from successfully read metadata instead bypasses the
skip check and the entry is classified by the digest comparison. -/
theorem metadata_unreadable_failed (H : Hashers) (entry : ChecksumEntry)
    (a : HashAlgorithm) (recorded : Nat)
    (hmod : entry.modified = some recorded) :
    (∀ (err : String) (content : Option (List Nat)),
      verify_single_file H ⟨true, Except.error err, content⟩ entry a true =
        VerifyResult.Failed ("Cannot read metadata: " ++ err)) ∧
    (∀ content : Option (List Nat),
      verify_single_file H ⟨true, Except.ok none, content⟩ entry a true =
        hashCheck H ⟨true, Except.ok none, content⟩ entry a) := by
  constructor
  · intro err content
    unfold verify_single_file
    rw [hmod]
    simp
  · intro content
    unfold verify_single_file
    rw [hmod]
    simp

/-- C6 amended witness: for a concrete entry, a target whose
`fs::metadata` read errors is Failed with the metadata message, while a
target whose metadata is fine but whose mtime is unobtainable is
classified by the digest comparison. -/
theorem metadata_unreadable_failed_witness :
    verify_single_file trivHashers ⟨true, Except.error "permission denied", some [1]⟩
      ⟨"f.txt", "00", some 3, some 1⟩ HashAlgorithm.Crc32 true =
      VerifyResult.Failed ("Cannot read metadata: " ++ "permission denied") ∧
    verify_single_file trivHashers ⟨true, Except.ok none, some [1]⟩
      ⟨"f.txt", "00", some 3, some 1⟩ HashAlgorithm.Crc32 true =
      hashCheck trivHashers ⟨true, Except.ok none, some [1]⟩
        ⟨"f.txt", "00", some 3, some 1⟩ HashAlgorithm.Crc32 :=
  ⟨(metadata_unreadable_failed trivHashers ⟨"f.txt", "00", some 3, some 1⟩
      HashAlgorithm.Crc32 3 rfl).1 "permission denied" (some [1]),
   (metadata_unreadable_failed trivHashers ⟨"f.txt", "00", some 3, some 1⟩
      HashAlgorithm.Crc32 3 rfl).2 (some [1])⟩

/-- C9: an unknown algorithm string in a loaded manifest does not abort
verification: the dispatcher falls back to SHA-256 and the whole run
produces the same summary as if the manifest had named sha256. -/
theorem unknown_algorithm_fallback (H : Hashers) (target : String → TargetFile)
    (cf : ChecksumFile) (skip_newer : Bool)
    (h : cf.algorithm ∉ ["sha256", "md5", "crc32", "blake2", "xxh3"]) :
    parseAlgorithm cf.algorithm = HashAlgorithm.Sha256 ∧
      verify_checksums H target cf skip_newer =
        verify_checksums H target { cf with algorithm := "sha256" } skip_newer := by
  simp only [List.mem_cons, List.not_mem_nil, or_false, not_or] at h
  obtain ⟨h1, h2, h3, h4, h5⟩ := h
  have hp : parseAlgorithm cf.algorithm = HashAlgorithm.Sha256 := by
    unfold parseAlgorithm
    simp [beq_iff_eq, h1, h2, h3, h4, h5]
  refine ⟨hp, ?_⟩
  unfold verify_checksums
  rw [hp]
  rfl

/-- C9 witness: a manifest naming the unsupported "whirlpool" is
verified exactly as a sha256 manifest. -/
theorem unknown_algorithm_fallback_witness :
    parseAlgorithm "whirlpool" = HashAlgorithm.Sha256 ∧
      verify_checksums trivHashers (targetUnchanged []) ⟨"1.0", "whirlpool", []⟩ false =
        verify_checksums trivHashers (targetUnchanged []) ⟨"1.0", "sha256", []⟩ false :=
  unknown_algorithm_fallback trivHashers (targetUnchanged [])
    ⟨"1.0", "whirlpool", []⟩ false (by decide)

/-- A readable file and an unreadable one (its content read fails),
used to evaluate generation on closed inputs. -/
def goodFile : SourceFile := ⟨"root/x.txt", "x.txt", some [1], some (4, 1)⟩

def badFile : SourceFile := ⟨"root/y.txt", "y.txt", none, some (4, 1)⟩

/-- C4: when exactly one of the N scanned files fails to process, the
manifest has N−1 entries, the error counter reads 1, and the run still
finishes successfully. -/
theorem partial_failure_tolerance (H : Hashers) (a : HashAlgorithm) (skip_newer : Bool)
    (files : List SourceFile) (N : Nat)
    (hN : files.length = N)
    (hone : files.countP (fun f => (process_file H f a skip_newer).isNone) = 1) :
    (generate_checksums H a [] skip_newer files).file.entries.length = N - 1 ∧
    (generate_checksums H a [] skip_newer files).errors = 1 ∧
    (generate_checksums H a [] skip_newer files).ok = true := by
  have hfilter : files.filter (fun f => !(should_exclude f.fullPath [])) = files := by
    simp [should_exclude]
  unfold generate_checksums
  dsimp only
  rw [hfilter]
  refine ⟨?_, hone, rfl⟩
  rw [(sortLe_perm entryLe (files.filterMap (fun f => process_file H f a skip_newer))).length_eq]
  have hlen := length_filterMap_add_countP (fun f => process_file H f a skip_newer) files
  omega

/-- C4 witness: of two scanned files one is unreadable; the manifest
keeps one entry, the error counter reads 1, the run succeeds. -/
theorem partial_failure_tolerance_witness :
    (generate_checksums trivHashers HashAlgorithm.Md5 [] false
        [goodFile, badFile]).file.entries.length = 2 - 1 ∧
    (generate_checksums trivHashers HashAlgorithm.Md5 [] false [goodFile, badFile]).errors = 1 ∧
    (generate_checksums trivHashers HashAlgorithm.Md5 [] false [goodFile, badFile]).ok = true :=
  partial_failure_tolerance trivHashers HashAlgorithm.Md5 false [goodFile, badFile] 2
    (by decide) (by decide)

/-- The three files of the exclusion scenario, scanned under root
`root`: `a.txt`, `b.tmp` and `.git/config`. -/
def fileA : SourceFile := ⟨"root/a.txt", "a.txt", some [97], some (11, 1)⟩

def fileTmp : SourceFile := ⟨"root/b.tmp", "b.tmp", some [98], some (12, 1)⟩

def fileGit : SourceFile := ⟨"root/.git/config", ".git/config", some [99], some (13, 1)⟩

/-- C5: a scanned file is dropped by generation exactly when one of the
exclude patterns matches its path; concretely, with files `a.txt`,
`b.tmp` and `.git/config` under the root and patterns `*.tmp` and
`**/.git/**`, the manifest keeps `a.txt` and omits the other two. -/
theorem exclusion_claim :
    (∀ (patterns : List (List Char)) (files : List SourceFile) (f : SourceFile),
        f ∈ files →
        (f ∈ files.filter (fun g => !(should_exclude g.fullPath patterns)) ↔
          should_exclude f.fullPath patterns = false)) ∧
    ∀ (H : Hashers) (a : HashAlgorithm) (skip_newer : Bool),
      (generate_checksums H a ["*.tmp".data, "**/.git/**".data] skip_newer
          [fileA, fileTmp, fileGit]).file.entries.map (fun e => e.path) = ["a.txt"] := by
  constructor
  · intro patterns files f hf
    simp [List.mem_filter, hf, Bool.not_eq_true']
  · intro H a skip_newer
    have hfilter : [fileA, fileTmp, fileGit].filter
        (fun g => !(should_exclude g.fullPath ["*.tmp".data, "**/.git/**".data])) =
        [fileA] := by decide
    unfold generate_checksums
    dsimp only
    rw [hfilter]
    cases skip_newer <;>
      simp [process_file, hash_file, fileA, sortLe, insertLe]

/-- C10: a generated entry's `modified` and `size` fields are populated
exactly when `--skip-newer` was passed to generation, and the two
fields are always both present or both absent. -/
theorem metadata_iff_skip_newer (H : Hashers) (a : HashAlgorithm)
    (patterns : List (List Char)) (skip_newer : Bool) (files : List SourceFile)
    (e : ChecksumEntry)
    (he : e ∈ (generate_checksums H a patterns skip_newer files).file.entries) :
    e.modified.isSome = skip_newer ∧ e.size.isSome = skip_newer ∧
      e.modified.isSome = e.size.isSome := by
  rcases mem_generate_entries.mp he with ⟨f, _, _, hp⟩
  rcases process_file_eq_some hp with ⟨c, _, _, _, hmeta⟩
  rcases hmeta with ⟨hsn, m, s, _, hm, hs⟩ | ⟨hsn, hm, hs⟩ <;>
    rw [hm, hs, hsn] <;> exact ⟨rfl, rfl, rfl⟩

/-- C10 witness: the entry generated for a concrete file with
`--skip-newer` set carries both metadata fields. -/
theorem metadata_iff_skip_newer_witness :
    ((⟨"x.txt", ⟨List.replicate 32 '0'⟩, some 4, some 1⟩ : ChecksumEntry).modified.isSome
        = true) ∧
    ((⟨"x.txt", ⟨List.replicate 32 '0'⟩, some 4, some 1⟩ : ChecksumEntry).size.isSome
        = true) ∧
    ((⟨"x.txt", ⟨List.replicate 32 '0'⟩, some 4, some 1⟩ : ChecksumEntry).modified.isSome
        = (⟨"x.txt", ⟨List.replicate 32 '0'⟩, some 4, some 1⟩ : ChecksumEntry).size.isSome) :=
  metadata_iff_skip_newer trivHashers HashAlgorithm.Md5 [] true [goodFile]
    ⟨"x.txt", ⟨List.replicate 32 '0'⟩, some 4, some 1⟩ (by decide)

/-- Every entry of a manifest generated over `files` verifies Ok against
the unchanged `files`, provided the scan yielded distinct relative
paths (as a directory walk does). -/
theorem roundtrip_entry_ok (H : Hashers) (a : HashAlgorithm)
    (patterns : List (List Char)) (skip_newer : Bool) (files : List SourceFile)
    (hnd : (files.map (fun f => f.relPath)).Nodup)
    (e : ChecksumEntry)
    (he : e ∈ (generate_checksums H a patterns skip_newer files).file.entries) :
    verify_single_file H (targetUnchanged files e.path) e a skip_newer = VerifyResult.Ok := by
  rcases mem_generate_entries.mp he with ⟨f, hf, _, hp⟩
  rcases process_file_eq_some hp with ⟨c, hc, hpath, hhash, hmeta⟩
  have hfind : files.find? (fun g => g.relPath == f.relPath) = some f :=
    find_of_nodup_keys (fun g => g.relPath) hnd hf
  have htarget : targetUnchanged files e.path =
      ⟨true, Except.ok (f.meta.map Prod.fst), f.content⟩ := by
    unfold targetUnchanged
    rw [hpath, hfind]
  rw [htarget]
  have hhashok : hashCheck H ⟨true, Except.ok (f.meta.map Prod.fst), f.content⟩ e a
      = VerifyResult.Ok := by
    unfold hashCheck hash_file
    rw [hc]
    simp [hhash]
  rcases hmeta with ⟨hsn, m, s, hm, hmod, _⟩ | ⟨hsn, hmod, _⟩
  · subst hsn
    unfold verify_single_file
    rw [hmod]
    simp only [hm, Bool.not_true, Bool.false_eq_true, if_false, Option.map_some',
      gt_iff_lt, lt_irrefl, if_neg]
    simpa using hhashok
  · subst hsn
    unfold verify_single_file
    simpa using hhashok

/-- When every entry classifies Ok, all counters but the Ok one are
zero and the run exits 0. -/
theorem verify_counts_all_ok (H : Hashers) (target : String → TargetFile)
    (cf : ChecksumFile) (skip_newer : Bool)
    (hall : ∀ e ∈ cf.entries,
      verify_single_file H (target e.path) e (parseAlgorithm cf.algorithm) skip_newer =
        VerifyResult.Ok) :
    (verify_checksums H target cf skip_newer).failCount = 0 ∧
    (verify_checksums H target cf skip_newer).skipCount = 0 ∧
    (verify_checksums H target cf skip_newer).okCount =
      (verify_checksums H target cf skip_newer).total ∧
    (verify_checksums H target cf skip_newer).exitCode = 0 := by
  have hfail : (verify_checksums H target cf skip_newer).failCount = 0 := by
    show List.countP _ _ = 0
    refine List.countP_eq_zero.mpr ?_
    rintro r hr
    rcases List.mem_map.mp hr with ⟨e, he, rfl⟩
    rw [hall e he]
    simp [VerifyResult.isFail]
  have hskip : (verify_checksums H target cf skip_newer).skipCount = 0 := by
    show List.countP _ _ = 0
    refine List.countP_eq_zero.mpr ?_
    rintro r hr
    rcases List.mem_map.mp hr with ⟨e, he, rfl⟩
    rw [hall e he]
    simp [VerifyResult.isSkip]
  refine ⟨hfail, hskip, ?_, ?_⟩
  · show List.countP _ _ = cf.entries.length
    rw [show cf.entries.length = (cf.entries.map
        (fun entry => verify_single_file H (target entry.path) entry
          (parseAlgorithm cf.algorithm) skip_newer)).length from (List.length_map _ _).symm]
    refine List.countP_eq_length.mpr ?_
    rintro r hr
    rcases List.mem_map.mp hr with ⟨e, he, rfl⟩
    rw [hall e he]
    rfl
  · rw [verify_exitCode H target cf skip_newer, hfail]
    rfl

/-- C1: generating a manifest over a directory and verifying that same
unchanged directory against it yields zero Failed and zero Skipped
outcomes — every entry classifies Ok and the run exits 0 — for every
supported algorithm (and whether or not metadata was captured). -/
theorem round_trip (H : Hashers) (a : HashAlgorithm) (patterns : List (List Char))
    (skip_newer : Bool) (files : List SourceFile)
    (hnd : (files.map (fun f => f.relPath)).Nodup) :
    (verify_checksums H (targetUnchanged files)
        (generate_checksums H a patterns skip_newer files).file skip_newer).failCount = 0 ∧
    (verify_checksums H (targetUnchanged files)
        (generate_checksums H a patterns skip_newer files).file skip_newer).skipCount = 0 ∧
    (verify_checksums H (targetUnchanged files)
        (generate_checksums H a patterns skip_newer files).file skip_newer).okCount =
      (verify_checksums H (targetUnchanged files)
        (generate_checksums H a patterns skip_newer files).file skip_newer).total ∧
    (verify_checksums H (targetUnchanged files)
        (generate_checksums H a patterns skip_newer files).file skip_newer).exitCode = 0 := by
  refine verify_counts_all_ok H (targetUnchanged files) _ skip_newer ?_
  intro e he
  have halg : parseAlgorithm (generate_checksums H a patterns skip_newer files).file.algorithm
      = a := parseAlgorithm_algorithmName a
  rw [halg]
  exact roundtrip_entry_ok H a patterns skip_newer files hnd e he

/-- C1 witness: round trip over a concrete one-file directory with
metadata captured. -/
theorem round_trip_witness :
    (verify_checksums trivHashers (targetUnchanged [goodFile])
        (generate_checksums trivHashers HashAlgorithm.Blake2 [] true
          [goodFile]).file true).failCount = 0 ∧
    (verify_checksums trivHashers (targetUnchanged [goodFile])
        (generate_checksums trivHashers HashAlgorithm.Blake2 [] true
          [goodFile]).file true).skipCount = 0 ∧
    (verify_checksums trivHashers (targetUnchanged [goodFile])
        (generate_checksums trivHashers HashAlgorithm.Blake2 [] true
          [goodFile]).file true).okCount =
      (verify_checksums trivHashers (targetUnchanged [goodFile])
        (generate_checksums trivHashers HashAlgorithm.Blake2 [] true
          [goodFile]).file true).total ∧
    (verify_checksums trivHashers (targetUnchanged [goodFile])
        (generate_checksums trivHashers HashAlgorithm.Blake2 [] true
          [goodFile]).file true).exitCode = 0 :=
  round_trip trivHashers HashAlgorithm.Blake2 [] true [goodFile] (by decide)

/-- C8: the produced manifest's entries are sorted ascending by path
with no duplicate paths, and the whole generation output is the same
for any order in which the scan yields the files — determinism up to
scan and scheduling order. -/
theorem manifest_sorted_deterministic (H : Hashers) (a : HashAlgorithm)
    (patterns : List (List Char)) (skip_newer : Bool) (files files' : List SourceFile)
    (hnd : (files.map (fun f => f.relPath)).Nodup)
    (hperm : files'.Perm files) :
    (generate_checksums H a patterns skip_newer files).file.entries.Pairwise
        (fun x y => entryLe x y = true) ∧
    ((generate_checksums H a patterns skip_newer files).file.entries.map
        (fun e => e.path)).Nodup ∧
    generate_checksums H a patterns skip_newer files' =
      generate_checksums H a patterns skip_newer files := by
  have hkeynd : ∀ l : List SourceFile, (l.map (fun f => f.relPath)).Nodup →
      ((l.filterMap (fun f => process_file H f a skip_newer)).map
        (fun e => e.path)).Nodup := by
    intro l hl
    refine nodup_keys_filterMap (fun f => process_file H f a skip_newer)
      (fun f => f.relPath) (fun e => e.path) ?_ l hl
    intro f e hp
    rcases process_file_eq_some hp with ⟨c, _, hpath, _⟩
    exact hpath
  have hincl_nd : ((files.filter (fun f => !(should_exclude f.fullPath patterns))).map
      (fun f => f.relPath)).Nodup :=
    List.Nodup.sublist ((List.filter_sublist files).map _) hnd
  have hsorted : ∀ l : List SourceFile,
      (sortLe entryLe (l.filterMap (fun f => process_file H f a skip_newer))).Pairwise
        (fun x y => entryLe x y = true) :=
    fun l => pairwise_sortLe entryLe_total (fun h1 h2 => entryLe_trans h1 h2) _
  have hnodup : ((sortLe entryLe ((files.filter
      (fun f => !(should_exclude f.fullPath patterns))).filterMap
        (fun f => process_file H f a skip_newer))).map (fun e => e.path)).Nodup :=
    (((sortLe_perm entryLe _).map (fun e => e.path)).nodup_iff).mpr (hkeynd _ hincl_nd)
  refine ⟨hsorted _, hnodup, ?_⟩
  have hpermfm : ((files.filter (fun f => !(should_exclude f.fullPath patterns))).filterMap
      (fun f => process_file H f a skip_newer)).Perm
      ((files'.filter (fun f => !(should_exclude f.fullPath patterns))).filterMap
        (fun f => process_file H f a skip_newer)) :=
    ((hperm.filter _).filterMap _).symm
  have hE : sortLe entryLe ((files'.filter
        (fun f => !(should_exclude f.fullPath patterns))).filterMap
          (fun f => process_file H f a skip_newer)) =
      sortLe entryLe ((files.filter
        (fun f => !(should_exclude f.fullPath patterns))).filterMap
          (fun f => process_file H f a skip_newer)) := by
    refine (sorted_nodup_perm_eq ?_
      (hsorted (files.filter (fun f => !(should_exclude f.fullPath patterns))))
      (hsorted (files'.filter (fun f => !(should_exclude f.fullPath patterns))))
      hnodup).symm
    exact (sortLe_perm entryLe _).trans (hpermfm.trans (sortLe_perm entryLe _).symm)
  have hC : (files'.filter (fun f => !(should_exclude f.fullPath patterns))).countP
        (fun f => (process_file H f a skip_newer).isNone) =
      (files.filter (fun f => !(should_exclude f.fullPath patterns))).countP
        (fun f => (process_file H f a skip_newer).isNone) :=
    (hperm.filter _).countP_eq _
  unfold generate_checksums
  dsimp only
  rw [hE, hC]

/-- C8 witness: scanning the same two files in either order produces the
identical sorted, duplicate-free manifest. -/
theorem manifest_sorted_deterministic_witness :
    (generate_checksums trivHashers HashAlgorithm.Crc32 [] false
        [goodFile, badFile]).file.entries.Pairwise (fun x y => entryLe x y = true) ∧
    ((generate_checksums trivHashers HashAlgorithm.Crc32 [] false
        [goodFile, badFile]).file.entries.map (fun e => e.path)).Nodup ∧
    generate_checksums trivHashers HashAlgorithm.Crc32 [] false [badFile, goodFile] =
      generate_checksums trivHashers HashAlgorithm.Crc32 [] false [goodFile, badFile] :=
  manifest_sorted_deterministic trivHashers HashAlgorithm.Crc32 [] false
    [goodFile, badFile] [badFile, goodFile] (by decide) (List.Perm.swap goodFile badFile [])

end Dirverify
